import Mathlib

/-
Verification of the coordinate-translation and action-execution pipeline of the
computer-use repository.  The Python sources are shallowly embedded: machine
arithmetic on screen coordinates is modelled with `Int`/`Rat`, Python's `round`
builtin (banker's rounding, half to even) is modelled by `pyRound`, Python's
`int()` truncation by `pyTrunc`, and dictionaries / the mutable object store of
the logger by explicit association lists.  Definitions come first, lemmas and
theorems after.
-/

namespace ComputerUse

/-- Python 3's `round` builtin on a rational value: round half to even.
`round(q)` returns the nearest integer; exact ties go to the even neighbour. -/
def pyRound (q : ℚ) : ℤ :=
  if q - ⌊q⌋ < 1/2 then ⌊q⌋
  else if (1 : ℚ)/2 < q - ⌊q⌋ then ⌊q⌋ + 1
  else if ⌊q⌋ % 2 = 0 then ⌊q⌋ else ⌊q⌋ + 1

/-- Python's `int()` applied to a float/rational: truncation toward zero. -/
def pyTrunc (q : ℚ) : ℤ :=
  if q < 0 then -⌊-q⌋ else ⌊q⌋

/-!
## CoordinateMapper — `map_coords_from_claude` (src/v1/orchestrator.py, lines 43–76)

The defensive vision-space → logical-space mapper: clamp to the vision canvas,
scale by `logical / vision` with rounding, clamp to the logical screen.
-/

/-- Transcription of `map_coords_from_claude` from src/v1/orchestrator.py:
clamp the incoming Claude-space point to `[0, claude_w-1] × [0, claude_h-1]`,
scale each axis by `logical / claude` with Python rounding, then clamp the
result to `[0, logical_w-1] × [0, logical_h-1]`. -/
def mapCoordsFromClaude (xc yc claudeW claudeH logicalW logicalH : ℤ) : ℤ × ℤ :=
  let xcClamped : ℤ := max 0 (min xc (claudeW - 1))
  let ycClamped : ℤ := max 0 (min yc (claudeH - 1))
  let scaleX : ℚ := (logicalW : ℚ) / (claudeW : ℚ)
  let scaleY : ℚ := (logicalH : ℚ) / (claudeH : ℚ)
  let xl : ℤ := pyRound ((xcClamped : ℚ) * scaleX)
  let yl : ℤ := pyRound ((ycClamped : ℚ) * scaleY)
  (max 0 (min xl (logicalW - 1)), max 0 (min yl (logicalH - 1)))

/-- Spec stage 1: clamp the input point to the vision canvas
`[0, vision_w-1] × [0, vision_h-1]`. -/
def clampToCanvas (visionW visionH : ℤ) (p : ℤ × ℤ) : ℤ × ℤ :=
  (max 0 (min p.1 (visionW - 1)), max 0 (min p.2 (visionH - 1)))

/-- Spec stage 2: scale each axis, `x = round(vision_x * logical_w / vision_w)`,
`y = round(vision_y * logical_h / vision_h)`. -/
def scaleToLogical (visionW visionH logicalW logicalH : ℤ) (p : ℤ × ℤ) : ℤ × ℤ :=
  (pyRound ((p.1 : ℚ) * logicalW / visionW), pyRound ((p.2 : ℚ) * logicalH / visionH))

/-- Spec stage 3: clamp the scaled point to `[0, logical_w-1] × [0, logical_h-1]`. -/
def clampToLogical (logicalW logicalH : ℤ) (p : ℤ × ℤ) : ℤ × ℤ :=
  (max 0 (min p.1 (logicalW - 1)), max 0 (min p.2 (logicalH - 1)))

/-- Transcription of src/orchestrator.py lines 237–248 (inside `execute_task`):
when the tool input carries a coordinate and the session's recorded
`coordinate_scale_factor` is not 1.0, both coordinates are divided by that one
factor with `int()` truncation — no clamp on the input, no rounding, and no
clamp on the output; when the factor is exactly 1.0 the coordinate passes
through unchanged. -/
def orchestratorMapCoords (xc yc : ℤ) (scaleFactor : ℚ) : ℤ × ℤ :=
  if scaleFactor ≠ 1 then
    (pyTrunc ((xc : ℚ) / scaleFactor), pyTrunc ((yc : ℚ) / scaleFactor))
  else (xc, yc)

/-!
## ScreenshotScaler — the three screenshot implementations

* `v1ScaleDown` / `v1VisionSize`: src/v1/agent.py, `DesktopAgent.screenshot`
  (lines 48–76) — single resize keyed off the logical size, `round`-based.
* `agentVisionSize`: src/agent.py, `DesktopAgent.screenshot` (lines 36–61) —
  two-stage resize (physical → logical "retina fix", then fit into the box),
  guarded so that it never runs on frames already inside the box, `int()`-based.
* `v2VisionSize`: src/v2/agent.py, `DesktopAgent.take_screenshot` (lines 66–104)
  — resizes the raw frame to the fixed configured target size.
-/

/-- Transcription of src/v1/agent.py lines 54–56: `scale_down =
min(MAX_WIDTH / logical_width, MAX_HEIGHT / logical_height)`.  There is no
clamp of this factor to 1. -/
def v1ScaleDown (logicalW logicalH maxW maxH : ℤ) : ℚ :=
  min ((maxW : ℚ) / (logicalW : ℚ)) ((maxH : ℚ) / (logicalH : ℚ))

/-- Transcription of src/v1/agent.py lines 59–68: `new_width =
int(round(logical_width * scale_down))`, `new_height = int(round(logical_height
* scale_down))`, then one resize of the physical frame to that size. -/
def v1VisionSize (logicalW logicalH maxW maxH : ℤ) : ℤ × ℤ :=
  (pyRound ((logicalW : ℚ) * v1ScaleDown logicalW logicalH maxW maxH),
   pyRound ((logicalH : ℚ) * v1ScaleDown logicalW logicalH maxW maxH))

/-- Transcription of src/agent.py lines 36–61: first the "retina fix" resize of
the physical frame down to the logical size (only when the frame exceeds it),
then a second resize into the 1280×800 box (only when the current frame exceeds
the box), computed from the current frame size with `int()` truncation. -/
def agentVisionSize (physW physH logicalW logicalH : ℤ) : ℤ × ℤ :=
  let cur : ℤ × ℤ :=
    if logicalW < physW ∨ logicalH < physH then (logicalW, logicalH) else (physW, physH)
  if 1280 < cur.1 ∨ 800 < cur.2 then
    let s : ℚ := min ((1280 : ℚ) / (cur.1 : ℚ)) ((800 : ℚ) / (cur.2 : ℚ))
    (pyTrunc ((cur.1 : ℚ) * s), pyTrunc ((cur.2 : ℚ) * s))
  else cur

/-- Transcription of src/v2/agent.py lines 77–81: `screenshot.resize(
(self.target_width, self.target_height))` — the vision frame is always exactly
the configured target size, independent of both the physical frame and the
logical screen. -/
def v2VisionSize (targetW targetH physW physH logicalW logicalH : ℤ) : ℤ × ℤ :=
  (targetW, targetH)

/-- Modelled from the spec: the repository has no explicit logical→vision
inverse mapper as a function (the inverse direction only appears implicitly
through the recorded `scale_factor`); per the spec's words the inverse scale
multiplies each coordinate by `vision / logical` and rounds. -/
def inverseMapToCanvas (visionW visionH logicalW logicalH : ℤ) (p : ℤ × ℤ) : ℤ × ℤ :=
  (pyRound ((p.1 : ℚ) * (visionW : ℚ) / (logicalW : ℚ)),
   pyRound ((p.2 : ℚ) * (visionH : ℚ) / (logicalH : ℚ)))

/-!
## ActionExecutor — `DesktopAgent` of src/agent.py

Each method is embedded as a function from its inputs, the OS screen bounds,
an oracle saying whether the underlying `pyautogui` call raises, and the
current `action_count`, to the returned result dictionary, the new
`action_count`, and the list of calls handed to the OS input layer.
Timestamps, logging to stdout and file paths carry no information relevant to
the claims and are elided.
-/

/-- A call handed to the OS input layer (a `pyautogui` invocation). -/
inductive OsEvent where
  | click (x y : ℤ) (button : String) (clicks : ℕ)
  | moveTo (x y : ℤ)
  | write (text : String)
  | press (key : String)
  | hotkey (keys : List String)
  deriving DecidableEq

/-- The result dictionary of a `DesktopAgent` method: its `type` field, its
`success` field (`none` when the dictionary carries no such key, as in the
screenshot result), and its `error` field. -/
structure ActionResult where
  rtype : String
  success : Option Bool
  error : Option String
  deriving DecidableEq

/-- Transcription of src/agent.py lines 95–131, `DesktopAgent.click`: validate
against the inclusive bounds `0 <= x <= screen_width and 0 <= y <=
screen_height`; on failure return a `success: False` dictionary without
touching the OS; else call `pyautogui.click` (whose exception is caught as a
failure result) and increment `action_count` on the success path only. -/
def clickImpl (screenW screenH : ℤ) (osFail : Bool) (count : ℕ)
    (x y : ℤ) (button : String) (clicks : ℕ) : ActionResult × ℕ × List OsEvent :=
  if ¬(0 ≤ x ∧ x ≤ screenW ∧ 0 ≤ y ∧ y ≤ screenH) then
    ({ rtype := "click", success := some false, error := some "Coordinates out of screen bounds" },
     count, [])
  else if osFail then
    ({ rtype := "click", success := some false, error := some "pyautogui error" },
     count, [OsEvent.click x y button clicks])
  else
    ({ rtype := "click", success := some true, error := none },
     count + 1, [OsEvent.click x y button clicks])

/-- Transcription of src/agent.py lines 191–219, `DesktopAgent.move_mouse`:
same inclusive bounds check as `click`, then `pyautogui.moveTo`. -/
def moveMouse (screenW screenH : ℤ) (osFail : Bool) (count : ℕ)
    (x y : ℤ) : ActionResult × ℕ × List OsEvent :=
  if ¬(0 ≤ x ∧ x ≤ screenW ∧ 0 ≤ y ∧ y ≤ screenH) then
    ({ rtype := "move_mouse", success := some false, error := some "Coordinates out of screen bounds" },
     count, [])
  else if osFail then
    ({ rtype := "move_mouse", success := some false, error := some "pyautogui error" },
     count, [OsEvent.moveTo x y])
  else
    ({ rtype := "move_mouse", success := some true, error := none },
     count + 1, [OsEvent.moveTo x y])

/-- Transcription of src/agent.py lines 133–153, `DesktopAgent.type_text`:
`pyautogui.write` inside try/except; `action_count` incremented on the success
path only. -/
def typeText (osFail : Bool) (count : ℕ) (text : String) :
    ActionResult × ℕ × List OsEvent :=
  if osFail then
    ({ rtype := "type", success := some false, error := some "pyautogui error" },
     count, [OsEvent.write text])
  else
    ({ rtype := "type", success := some true, error := none },
     count + 1, [OsEvent.write text])

/-- Transcription of src/agent.py lines 155–189, `DesktopAgent.key_press`: a
combination containing `+` is split, `cmd` is normalised to `command`, and
issued as a hotkey chord; otherwise a single key press. -/
def keyPress (osFail : Bool) (count : ℕ) (key : String) :
    ActionResult × ℕ × List OsEvent :=
  let ev : OsEvent :=
    if key.contains '+' then
      OsEvent.hotkey ((key.splitOn "+").map fun k => if k = "cmd" then "command" else k)
    else
      OsEvent.press key
  if osFail then
    ({ rtype := "key_press", success := some false, error := some "pyautogui error" },
     count, [ev])
  else
    ({ rtype := "key_press", success := some true, error := none },
     count + 1, [ev])

/-- Transcription of src/agent.py lines 27–93, `DesktopAgent.screenshot`:
capture, resize, then persist to disk — with no try/except, so a persistence
failure raises out of the method; on success `action_count` is incremented,
and the returned dictionary has no `success` key. -/
def screenshotImpl (persistFail : Bool) (count : ℕ) :
    Except String (ActionResult × ℕ × List OsEvent) :=
  if persistFail then Except.error "OSError: could not save screenshot"
  else Except.ok ({ rtype := "screenshot", success := none, error := none }, count + 1, [])

/-- An action request dictionary as dispatched by `execute_action`: the
`action`, `coordinate` and `text` keys, each possibly absent. -/
structure ActionDict where
  action : Option String
  coordinate : Option (ℤ × ℤ)
  text : Option String
  deriving DecidableEq

/-- Transcription of src/agent.py lines 230–253, `DesktopAgent.execute_action`:
dispatch on `action.get("action")`; the coordinate and text fields are read
with `action["coordinate"]` / `action["text"]`, so a missing field raises
`KeyError` out of the method (there is no surrounding try/except); an
unrecognised action type returns a `success: False` error dictionary. -/
def executeAction (screenW screenH : ℤ) (osFail persistFail : Bool) (count : ℕ)
    (a : ActionDict) : Except String (ActionResult × ℕ × List OsEvent) :=
  if a.action = some "screenshot" then
    screenshotImpl persistFail count
  else if a.action = some "mouse_move" then
    match a.coordinate with
    | none => Except.error "KeyError: coordinate"
    | some (x, y) => Except.ok (moveMouse screenW screenH osFail count x y)
  else if a.action = some "left_click" then
    match a.coordinate with
    | none => Except.error "KeyError: coordinate"
    | some (x, y) => Except.ok (clickImpl screenW screenH osFail count x y "left" 1)
  else if a.action = some "right_click" then
    match a.coordinate with
    | none => Except.error "KeyError: coordinate"
    | some (x, y) => Except.ok (clickImpl screenW screenH osFail count x y "right" 1)
  else if a.action = some "double_click" then
    match a.coordinate with
    | none => Except.error "KeyError: coordinate"
    | some (x, y) => Except.ok (clickImpl screenW screenH osFail count x y "left" 2)
  else if a.action = some "type" then
    match a.text with
    | none => Except.error "KeyError: text"
    | some t => Except.ok (typeText osFail count t)
  else if a.action = some "key" then
    match a.text with
    | none => Except.error "KeyError: text"
    | some k => Except.ok (keyPress osFail count k)
  else
    Except.ok ({ rtype := "error", success := some false, error := some "Unknown action type" },
      count, [])

/-- Truncated weakest-precondition view of an `Except` computation: the
property holds of the value whenever the computation returns one. -/
def onOk (e : Except String (ActionResult × ℕ × List OsEvent))
    (P : ActionResult × ℕ × List OsEvent → Prop) : Prop :=
  match e with
  | Except.error _ => True
  | Except.ok p => P p

/-!
## ToolCallOrchestrator — the `/task` loop of src/orchestrator.py (lines 193–320)

The loop state is the iteration counter, the `task_complete` flag and the
accumulated `execution_log`.  The remote service is modelled as a stream of
responses indexed by turn: `responses 0` is the reply to the initial message,
`responses (n+1)` the reply to the n-th `continue_conversation`.  Tool
execution inside the loop (agent calls, logging to file, websocket broadcast)
does not influence the loop control variables and is elided; the
`execution_log` entries it appends are kept.
-/

/-- A tool-call request inside a response from the remote service. -/
structure ToolUse where
  name : String
  input : String
  deriving DecidableEq

/-- One response from the remote service: its free-text blocks, its stop
reason, and its tool-call requests. -/
structure ClaudeResponse where
  textResponses : List String
  stopReason : String
  toolUses : List ToolUse
  deriving DecidableEq

/-- An entry of the `execution_log` list built by the loop. -/
inductive LogEntry where
  | claudeMessage (text : String)
  | toolUse (tool : String) (input : String)
  deriving DecidableEq

/-- The value returned by the `/task` endpoint: the `success` flag (the final
`task_complete`), the iteration count, and the execution log. -/
structure TaskOutcome where
  success : Bool
  iterations : ℕ
  executionLog : List LogEntry
  deriving DecidableEq

/-- The `claude_message` log entries appended at the top of each iteration. -/
def messageEntries (r : ClaudeResponse) : List LogEntry :=
  r.textResponses.map LogEntry.claudeMessage

/-- The `tool_use` log entries appended while executing a response's tools. -/
def toolEntries (r : ClaudeResponse) : List LogEntry :=
  r.toolUses.map fun t => LogEntry.toolUse t.name t.input

/-- The body of `while iterations < max_iterations and not task_complete`,
with `fuel = max_iterations - iterations` remaining guard slack: log the
response's texts; stop with success on `end_turn`; execute the tools, log
them and continue on a tool-use response; stop with success when there are no
tool uses.  Exhausted fuel is the guard failing with `task_complete` still
false. -/
def taskLoop (responses : ℕ → ClaudeResponse) :
    ℕ → ℕ → ℕ → List LogEntry → TaskOutcome
  | 0, iterations, _, log => ⟨false, iterations, log⟩
  | fuel + 1, iterations, turn, log =>
      let resp := responses turn
      let its := iterations + 1
      let log1 := log ++ messageEntries resp
      if resp.stopReason = "end_turn" then ⟨true, its, log1⟩
      else if resp.toolUses ≠ [] then
        taskLoop responses fuel its (turn + 1) (log1 ++ toolEntries resp)
      else ⟨true, its, log1⟩

/-- Transcription of `execute_task`: run the loop from a fresh session with
the response to the initial message. -/
def executeTask (maxIterations : ℕ) (responses : ℕ → ClaudeResponse) : TaskOutcome :=
  taskLoop responses maxIterations 0 0 []

/-- The execution log accumulated over `fuel` consecutive all-tool-use
iterations starting at the given turn. -/
def accumulatedEntries (responses : ℕ → ClaudeResponse) : ℕ → ℕ → List LogEntry
  | _, 0 => []
  | turn, fuel + 1 =>
      (messageEntries (responses turn) ++ toolEntries (responses turn)) ++
        accumulatedEntries responses (turn + 1) fuel

/-- A remote service that always asks for one more screenshot. -/
def alwaysToolResponses : ℕ → ClaudeResponse :=
  fun _ => ⟨["working on it"], "tool_use", [⟨"computer", "screenshot"⟩]⟩

/-!
## SessionLog — `ActionLogger.log_action` (src/logger.py, lines 34–49)

Python dictionaries are mutable objects, so mutation versus copying is
observable.  We model result dictionaries as string-valued association lists
living on an explicit store of numbered references; `result.copy()` is an
allocation of a fresh reference holding the same association list, and item
assignment mutates the dictionary behind a reference in place.
-/

/-- A Python dict with string keys and string values. -/
abbrev PyDict := List (String × String)

/-- Dictionary item lookup `d[k]` as an `Option`. -/
def dictGet (d : PyDict) (k : String) : Option String :=
  match d with
  | [] => none
  | (k', v) :: rest => if k' = k then some v else dictGet rest k

/-- Dictionary item assignment `d[k] = v`: replace the binding if present,
else append it. -/
def dictSet (d : PyDict) (k v : String) : PyDict :=
  match d with
  | [] => [(k, v)]
  | (k', v') :: rest => if k' = k then (k, v) :: rest else (k', v') :: dictSet rest k v

/-- Association-list lookup over store references. -/
def refGet (l : List (ℕ × PyDict)) (a : ℕ) : Option PyDict :=
  match l with
  | [] => none
  | (k, v) :: rest => if k = a then some v else refGet rest a

/-- Association-list update over store references. -/
def refSet (l : List (ℕ × PyDict)) (a : ℕ) (d : PyDict) : List (ℕ × PyDict) :=
  match l with
  | [] => []
  | (k, v) :: rest => if k = a then (k, d) :: rest else (k, v) :: refSet rest a d

/-- The mutable object store: numbered dictionaries plus a fresh counter. -/
structure Heap where
  mem : List (ℕ × PyDict)
  next : ℕ
  deriving DecidableEq

/-- Dereference a store reference. -/
def Heap.get (h : Heap) (a : ℕ) : Option PyDict := refGet h.mem a

/-- In-place mutation of the dictionary behind a reference. -/
def Heap.set (h : Heap) (a : ℕ) (d : PyDict) : Heap := ⟨refSet h.mem a d, h.next⟩

/-- The copy `dict.copy()`: allocate a fresh reference holding the same
bindings. -/
def Heap.alloc (h : Heap) (d : PyDict) : ℕ × Heap :=
  (h.next, ⟨(h.next, d) :: h.mem, h.next + 1⟩)

/-- All live references are below the fresh counter. -/
def Heap.wf (h : Heap) : Prop := ∀ p ∈ h.mem, p.1 < h.next

instance (h : Heap) : Decidable (Heap.wf h) :=
  decidable_of_iff (∀ p ∈ h.mem, p.1 < h.next) Iff.rfl

/-- The persisted log entry: references to the action dict and to the result
dict it records (the latter possibly a redacted copy). -/
structure LogRecord where
  actionRef : ℕ
  resultRef : ℕ
  deriving DecidableEq

/-- The redaction placeholder `f"<base64 image: {len} chars>"`. -/
def redactedPlaceholder (n : ℕ) : String :=
  "<base64 image: " ++ toString n ++ " chars>"

/-- The redaction path of `log_action`: `log_result = result.copy()` (a fresh
allocation), then `log_result["data"] = f"<base64 image: {len} chars>"` (an
in-place mutation of the fresh copy), persisting the copy's reference. -/
def logActionRedact (h : Heap) (actionRef resultRef : ℕ) : Heap × LogRecord :=
  ((h.alloc ((h.get resultRef).getD [])).2.set
      (h.alloc ((h.get resultRef).getD [])).1
      (dictSet ((h.get resultRef).getD []) "data"
        (redactedPlaceholder (((dictGet ((h.get resultRef).getD []) "data").getD "").length))),
   ⟨actionRef, (h.alloc ((h.get resultRef).getD [])).1⟩)

/-- Transcription of src/logger.py lines 34–49, `ActionLogger.log_action`:
build the log entry around the given action and result; when the result is a
screenshot carrying `data`, redact on a copy as in `logActionRedact`;
otherwise persist the result reference itself.  The returned pair is the
store after the call and the persisted record. -/
def logAction (h : Heap) (actionRef resultRef : ℕ) : Heap × LogRecord :=
  if dictGet ((h.get resultRef).getD []) "type" = some "screenshot" ∧
      (dictGet ((h.get resultRef).getD []) "data").isSome then
    logActionRedact h actionRef resultRef
  else
    (h, ⟨actionRef, resultRef⟩)

/-!
## Lemmas and theorems
-/

/-- The rounding `pyRound` lands within half a unit of its argument. -/
lemma abs_pyRound_sub (q : ℚ) : |(pyRound q : ℚ) - q| ≤ 1/2 := by
  have h0 : (⌊q⌋ : ℚ) ≤ q := Int.floor_le q
  have h1 : q < ⌊q⌋ + 1 := Int.lt_floor_add_one q
  unfold pyRound
  split_ifs with hlt hgt hev
  · rw [abs_le]; constructor <;> · push_cast; linarith
  · rw [abs_le]; constructor <;> · push_cast; linarith
  · rw [abs_le]; constructor <;> · push_cast; linarith
  · rw [abs_le]; constructor <;> · push_cast; linarith

lemma pyRound_le (q : ℚ) : (pyRound q : ℚ) ≤ q + 1/2 := by
  have h := abs_pyRound_sub q
  rw [abs_le] at h
  linarith [h.2]

lemma le_pyRound (q : ℚ) : q - 1/2 ≤ (pyRound q : ℚ) := by
  have h := abs_pyRound_sub q
  rw [abs_le] at h
  linarith [h.1]

/-- An integer bounded by an integer-plus-half is at most that integer. -/
lemma int_le_of_le_add_half (n m : ℤ) (h : (n : ℚ) ≤ (m : ℚ) + 1/2) : n ≤ m := by
  by_contra hc
  push_neg at hc
  have : (m : ℚ) + 1 ≤ (n : ℚ) := by exact_mod_cast hc
  linarith

/-- An integer above an integer-minus-half is at least that integer minus one. -/
lemma int_ge_of_ge_sub_half (n m : ℤ) (h : (m : ℚ) - 1/2 ≤ (n : ℚ)) : m - 1 ≤ n := by
  by_contra hc
  push_neg at hc
  have hc' : n + 1 ≤ m - 1 := hc
  have : (n : ℚ) + 1 ≤ (m : ℚ) - 1 := by exact_mod_cast hc'
  linarith

/-- C2 amended: for all integer inputs, the v1 mapper `map_coords_from_claude`
is exactly the composition clamp-to-canvas, then scale-with-rounding, then
clamp-to-logical, in that order; the inline mapping of src/orchestrator.py's
`execute_task` does not follow this algorithm (see the counterexample). -/
theorem mapper_is_three_stage_composition (xc yc cw ch lw lh : ℤ) :
    mapCoordsFromClaude xc yc cw ch lw lh =
      clampToLogical lw lh (scaleToLogical cw ch lw lh (clampToCanvas cw ch (xc, yc))) := by
  simp only [mapCoordsFromClaude, clampToCanvas, scaleToLogical, clampToLogical, mul_div_assoc]

/-- C2 counterexample: the inline mapping of src/orchestrator.py (lines
237–248) does not perform clamp, round-scale, clamp.  On a 1231×800 canvas
over a 1512×982 logical screen (scale_factor 1231/1512), the out-of-canvas
point (2000, 900) is mapped by `int()` division to (2456, 1105) — outside the
logical screen, so no output clamp ran — while the claimed three-stage
algorithm yields (1511, 981); and even the in-canvas point (100, 100), where
no clamp is involved, truncates to (122, 122) instead of rounding to
(123, 123). -/
theorem orchestrator_mapping_not_clamp_round_clamp :
    orchestratorMapCoords 2000 900 (1231/1512) = (2456, 1105) ∧
    clampToLogical 1512 982 (scaleToLogical 1231 800 1512 982
      (clampToCanvas 1231 800 (2000, 900))) = (1511, 981) ∧
    ((2456 : ℤ), (1105 : ℤ)) ≠ ((1511 : ℤ), (981 : ℤ)) ∧
    ¬((2456 : ℤ) ≤ 1512 - 1) ∧
    orchestratorMapCoords 100 100 (1231/1512) = (122, 122) ∧
    clampToLogical 1512 982 (scaleToLogical 1231 800 1512 982
      (clampToCanvas 1231 800 (100, 100))) = (123, 123) := by
  refine ⟨?_, ?_, by decide, by decide, ?_, ?_⟩
  · unfold orchestratorMapCoords
    rw [if_pos (by norm_num : (1231/1512 : ℚ) ≠ 1)]
    unfold pyTrunc
    norm_num
  · unfold clampToCanvas scaleToLogical clampToLogical
    norm_num
    unfold pyRound
    norm_num
  · unfold orchestratorMapCoords
    rw [if_pos (by norm_num : (1231/1512 : ℚ) ≠ 1)]
    unfold pyTrunc
    norm_num
  · unfold clampToCanvas scaleToLogical clampToLogical
    norm_num
    unfold pyRound
    norm_num

/-- C3 counterexample: for a logical screen of 800×600 (already inside the
1280×800 box) the v1 scaler computes `scale = min(1280/800, 800/600) = 4/3 > 1`
— it is not clamped to 1.0 — and the frame is upscaled to 1067×800. -/
theorem v1_scaler_upscales_small_screen :
    v1ScaleDown 800 600 1280 800 = 4/3 ∧ (1 : ℚ) < 4/3 ∧
    v1VisionSize 800 600 1280 800 = (1067, 800) ∧ (800 : ℤ) < 1067 := by
  have hs : v1ScaleDown 800 600 1280 800 = 4/3 := by
    unfold v1ScaleDown
    rw [min_eq_right] <;> norm_num
  refine ⟨hs, by norm_num, ?_, by norm_num⟩
  unfold v1VisionSize
  rw [hs]
  unfold pyRound
  norm_num

/-- C3 amended: the v1 screenshot scaler computes
`scale = min(max_w/logical_w, max_h/logical_h)` with no clamp to 1.0, and
resizes directly to `(round(w*scale), round(h*scale))` in a single pass; when
the logical screen lies strictly inside the box the scale exceeds 1 and the
produced vision frame is at least as large as the logical screen (upscaled). -/
theorem v1_scaler_unclamped (w h W H : ℤ) (hw : 0 < w) (hh : 0 < h)
    (hwW : w < W) (hhH : h < H) :
    v1ScaleDown w h W H = min ((W : ℚ) / w) ((H : ℚ) / h) ∧
    1 < v1ScaleDown w h W H ∧
    w ≤ (v1VisionSize w h W H).1 ∧ h ≤ (v1VisionSize w h W H).2 := by
  have hw' : (0 : ℚ) < (w : ℚ) := by exact_mod_cast hw
  have hh' : (0 : ℚ) < (h : ℚ) := by exact_mod_cast hh
  have hs : 1 < v1ScaleDown w h W H := by
    apply lt_min
    · rw [lt_div_iff hw']; push_cast; exact_mod_cast by linarith
    · rw [lt_div_iff hh']; push_cast; exact_mod_cast by linarith
  refine ⟨rfl, hs, ?_, ?_⟩
  · have h1 : (w : ℚ) * 1 < (w : ℚ) * v1ScaleDown w h W H :=
      mul_lt_mul_of_pos_left hs hw'
    have h2 := le_pyRound ((w : ℚ) * v1ScaleDown w h W H)
    have : (w : ℚ) - 1 < (pyRound ((w : ℚ) * v1ScaleDown w h W H) : ℚ) := by linarith
    have hle : w - 1 < pyRound ((w : ℚ) * v1ScaleDown w h W H) := by exact_mod_cast this
    simpa [v1VisionSize] using by omega
  · have h1 : (h : ℚ) * 1 < (h : ℚ) * v1ScaleDown w h W H :=
      mul_lt_mul_of_pos_left hs hh'
    have h2 := le_pyRound ((h : ℚ) * v1ScaleDown w h W H)
    have : (h : ℚ) - 1 < (pyRound ((h : ℚ) * v1ScaleDown w h W H) : ℚ) := by linarith
    have hle : h - 1 < pyRound ((h : ℚ) * v1ScaleDown w h W H) := by exact_mod_cast this
    simpa [v1VisionSize] using by omega

/-- Witness for `v1_scaler_unclamped` at the concrete 800×600 screen. -/
theorem v1_scaler_unclamped_w :
    ((0 : ℤ) < 800 ∧ (0 : ℤ) < 600 ∧ (800 : ℤ) < 1280 ∧ (600 : ℤ) < 800) ∧
    (1 < v1ScaleDown 800 600 1280 800 ∧
      800 ≤ (v1VisionSize 800 600 1280 800).1 ∧ 600 ≤ (v1VisionSize 800 600 1280 800).2) :=
  ⟨⟨by decide, by decide, by decide, by decide⟩,
    ⟨(v1_scaler_unclamped 800 600 1280 800 (by decide) (by decide) (by decide) (by decide)).2.1,
     (v1_scaler_unclamped 800 600 1280 800 (by decide) (by decide) (by decide) (by decide)).2.2.1,
     (v1_scaler_unclamped 800 600 1280 800 (by decide) (by decide) (by decide) (by decide)).2.2.2⟩⟩

/-- C4 counterexample: v2's `take_screenshot` stretches the frame to the fixed
1024×768 target whatever the logical screen is; for the 1512×982 logical screen
the vision aspect is nowhere near the logical aspect (difference ≈ 0.206, far
above one rounding unit in either formalisation). -/
theorem v2_fixed_target_breaks_aspect :
    v2VisionSize 1024 768 3024 1964 1512 982 = (1024, 768) ∧
    ¬(|(982 : ℚ) * 1024 - (1512 : ℚ) * 768| ≤ ((1512 : ℚ) + 982) / 2) ∧
    ¬(|(1024 : ℚ) / 768 - (1512 : ℚ) / 982| < 1/100) := by
  refine ⟨rfl, ?_, ?_⟩
  · rw [abs_le]; push_neg; intro h; exfalso; norm_num at h
  · rw [abs_lt]; push_neg; intro h; exfalso; norm_num at h

/-- C4 amended: the v1 screenshot operation always fits the maximum box and
keeps the vision aspect within one rounding unit per axis of the logical
aspect, in the cross-multiplied form
`|h*vision_w - w*vision_h| ≤ (w+h)/2`; v2's fixed-target variant does not. -/
theorem v1_vision_fits_box_and_aspect (w h W H : ℤ) (hw : 0 < w) (hh : 0 < h) :
    (v1VisionSize w h W H).1 ≤ W ∧ (v1VisionSize w h W H).2 ≤ H ∧
    |(h : ℚ) * ((v1VisionSize w h W H).1 : ℚ) - (w : ℚ) * ((v1VisionSize w h W H).2 : ℚ)| ≤
      ((w : ℚ) + (h : ℚ)) / 2 := by
  have hw' : (0 : ℚ) < (w : ℚ) := by exact_mod_cast hw
  have hh' : (0 : ℚ) < (h : ℚ) := by exact_mod_cast hh
  set s : ℚ := v1ScaleDown w h W H with hs
  have hsW : (w : ℚ) * s ≤ W := by
    have h1 : s ≤ (W : ℚ) / w := min_le_left _ _
    calc (w : ℚ) * s ≤ (w : ℚ) * ((W : ℚ) / w) := by
          exact mul_le_mul_of_nonneg_left h1 (le_of_lt hw')
      _ = W := by field_simp
  have hsH : (h : ℚ) * s ≤ H := by
    have h1 : s ≤ (H : ℚ) / h := min_le_right _ _
    calc (h : ℚ) * s ≤ (h : ℚ) * ((H : ℚ) / h) := by
          exact mul_le_mul_of_nonneg_left h1 (le_of_lt hh')
      _ = H := by field_simp
  have hvW : (v1VisionSize w h W H).1 = pyRound ((w : ℚ) * s) := rfl
  have hvH : (v1VisionSize w h W H).2 = pyRound ((h : ℚ) * s) := rfl
  have hrW := abs_pyRound_sub ((w : ℚ) * s)
  have hrH := abs_pyRound_sub ((h : ℚ) * s)
  refine ⟨?_, ?_, ?_⟩
  · rw [hvW]
    apply int_le_of_le_add_half
    have := pyRound_le ((w : ℚ) * s)
    linarith
  · rw [hvH]
    apply int_le_of_le_add_half
    have := pyRound_le ((h : ℚ) * s)
    linarith
  · rw [hvW, hvH]
    rw [abs_le] at hrW hrH ⊢
    constructor <;> nlinarith [hrW.1, hrW.2, hrH.1, hrH.2, hw'.le, hh'.le]

/-- Witness for `v1_vision_fits_box_and_aspect` at the 1512×982 screen. -/
theorem v1_vision_fits_box_and_aspect_w :
    ((0 : ℤ) < 1512 ∧ (0 : ℤ) < 982) ∧
    ((v1VisionSize 1512 982 1280 800).1 ≤ 1280 ∧ (v1VisionSize 1512 982 1280 800).2 ≤ 800) :=
  ⟨⟨by decide, by decide⟩,
    ⟨(v1_vision_fits_box_and_aspect 1512 982 1280 800 (by decide) (by decide)).1,
     (v1_vision_fits_box_and_aspect 1512 982 1280 800 (by decide) (by decide)).2.1⟩⟩

/-- C6 counterexample: for the 1512×982 logical screen in the 1280×800 box the
v1 screenshot produces a 1232×800 vision frame, not the 1233×800 the claim
states (the truncating src/agent.py variant produces 1231×800). -/
theorem scenario_1512x982_not_1233 :
    v1VisionSize 1512 982 1280 800 = (1232, 800) ∧
    ((1232 : ℤ), (800 : ℤ)) ≠ ((1233 : ℤ), (800 : ℤ)) := by
  constructor
  · have hs : v1ScaleDown 1512 982 1280 800 = 800/982 := by
      unfold v1ScaleDown
      rw [min_eq_right] <;> norm_num
    unfold v1VisionSize
    rw [hs]
    unfold pyRound
    norm_num
  · decide

/-- C6 amended: scale = min(1280/1512, 800/982) = 800/982 ≈ 0.8147 and it is
the height constraint that wins (800/982 < 1280/1512); the v1 vision frame is
1232×800 and the truncating src/agent.py pipeline gives 1231×800; the aspect
difference of the 1232×800 frame from 1512/982 is below 0.001. -/
theorem scenario_1512x982_sizes :
    v1ScaleDown 1512 982 1280 800 = 800/982 ∧
    (800 : ℚ)/982 < (1280 : ℚ)/1512 ∧
    v1VisionSize 1512 982 1280 800 = (1232, 800) ∧
    agentVisionSize 3024 1964 1512 982 = (1231, 800) ∧
    |(1232 : ℚ)/800 - (1512 : ℚ)/982| < 1/1000 := by
  have hs : v1ScaleDown 1512 982 1280 800 = 800/982 := by
    unfold v1ScaleDown
    rw [min_eq_right] <;> norm_num
  refine ⟨hs, by norm_num, ?_, ?_, ?_⟩
  · unfold v1VisionSize
    rw [hs]
    unfold pyRound
    norm_num
  · unfold agentVisionSize
    norm_num
    unfold pyTrunc
    norm_num
  · rw [abs_lt]
    constructor <;> norm_num

/-- One axis of the round trip: scaling `x` up by `L/V` with rounding stays in
`[0, L-1]` (both clamps are identities) and scaling back by `V/L` with rounding
returns to within 1 of `x`, provided the logical axis is at least the vision
axis. -/
lemma round_trip_axis (V L x : ℤ) (hV : 0 < V) (hVL : V ≤ L)
    (hx0 : 0 ≤ x) (hx1 : x ≤ V - 1) :
    0 ≤ pyRound ((x : ℚ) * L / V) ∧
    pyRound ((x : ℚ) * L / V) ≤ L - 1 ∧
    |pyRound ((pyRound ((x : ℚ) * L / V) : ℚ) * V / L) - x| ≤ 1 := by
  have hV' : (0 : ℚ) < (V : ℚ) := by exact_mod_cast hV
  have hL : 0 < L := lt_of_lt_of_le hV hVL
  have hL' : (0 : ℚ) < (L : ℚ) := by exact_mod_cast hL
  have hVL' : (V : ℚ) ≤ (L : ℚ) := by exact_mod_cast hVL
  have hx0' : (0 : ℚ) ≤ (x : ℚ) := by exact_mod_cast hx0
  have hx1' : (x : ℚ) ≤ (V : ℚ) - 1 := by
    have : (x : ℚ) ≤ ((V - 1 : ℤ) : ℚ) := by exact_mod_cast hx1
    push_cast at this
    linarith
  set t : ℚ := (x : ℚ) * L / V with ht
  set xl : ℤ := pyRound t with hxl
  have h1 : |(xl : ℚ) - t| ≤ 1/2 := abs_pyRound_sub t
  have ht0 : 0 ≤ t := by positivity
  have htU : t ≤ (L : ℚ) - 1 := by
    have hstep : (x : ℚ) * L ≤ ((V : ℚ) - 1) * L := by nlinarith
    have h2 : t ≤ ((V : ℚ) - 1) * L / V := by
      rw [ht]
      exact (div_le_div_right hV').mpr hstep
    have h3 : ((V : ℚ) - 1) * L / V ≤ (L : ℚ) - 1 := by
      rw [div_le_iff hV']
      nlinarith
    linarith
  have hxl0 : 0 ≤ xl := by
    by_contra hc
    push_neg at hc
    have h2 : xl + 1 ≤ 0 := Int.lt_iff_add_one_le.mp hc
    have h3 : (xl : ℚ) + 1 ≤ 0 := by exact_mod_cast h2
    have := le_pyRound t
    rw [← hxl] at this
    linarith
  have hxlU : xl ≤ L - 1 := by
    apply int_le_of_le_add_half
    have h2 := pyRound_le t
    rw [← hxl] at h2
    push_cast
    linarith
  refine ⟨hxl0, hxlU, ?_⟩
  set u : ℚ := (xl : ℚ) * V / L with hu
  set xr : ℤ := pyRound u with hxr
  have h2 : |(xr : ℚ) - u| ≤ 1/2 := abs_pyRound_sub u
  have key : u - (x : ℚ) = ((xl : ℚ) - t) * ((V : ℚ) / L) := by
    rw [hu, ht]
    field_simp
    ring
  have hVL2 : (V : ℚ) / L ≤ 1 := (div_le_one hL').mpr hVL'
  have habs : |u - (x : ℚ)| ≤ 1/2 := by
    rw [key, abs_mul, abs_of_nonneg (by positivity : (0 : ℚ) ≤ (V : ℚ) / L)]
    calc |(xl : ℚ) - t| * ((V : ℚ) / L) ≤ (1/2) * 1 :=
          mul_le_mul h1 hVL2 (by positivity) (by norm_num)
      _ = 1/2 := by norm_num
  have htri : |(xr : ℚ) - (x : ℚ)| ≤ 1 := by
    calc |(xr : ℚ) - (x : ℚ)| ≤ |(xr : ℚ) - u| + |u - (x : ℚ)| := abs_sub_le _ _ _
      _ ≤ 1/2 + 1/2 := add_le_add h2 habs
      _ = 1 := by norm_num
  have : |((xr - x : ℤ) : ℚ)| ≤ 1 := by push_cast; exact htri
  exact_mod_cast this

/-- C5 counterexample: with a 10×10 logical screen the v1 scaler produces an
800×800 vision canvas (logical smaller than vision); the point (4,4) is
strictly inside the canvas and passes through the mapper with every clamp an
identity, yet the round trip returns (0,0), four pixels away. -/
theorem round_trip_fails_when_logical_smaller :
    v1VisionSize 10 10 1280 800 = (800, 800) ∧
    clampToCanvas 800 800 (4, 4) = (4, 4) ∧
    mapCoordsFromClaude 4 4 800 800 10 10 = (0, 0) ∧
    clampToLogical 10 10 (0, 0) = (0, 0) ∧
    inverseMapToCanvas 800 800 10 10 (0, 0) = (0, 0) ∧
    ¬(|(0 : ℤ) - 4| ≤ 1) := by
  refine ⟨?_, ?_, ?_, ?_, ?_, by decide⟩
  · have hs : v1ScaleDown 10 10 1280 800 = 80 := by
      unfold v1ScaleDown
      rw [min_eq_right] <;> norm_num
    unfold v1VisionSize
    rw [hs]
    unfold pyRound
    norm_num
  · unfold clampToCanvas
    norm_num
  · unfold mapCoordsFromClaude
    norm_num
    unfold pyRound
    norm_num
  · unfold clampToLogical
    norm_num
  · unfold inverseMapToCanvas
    norm_num
    unfold pyRound
    norm_num

/-- C5 amended: whenever the logical screen is at least as large as the vision
canvas on each axis (the regime the scaler is meant to produce), every point of
the canvas maps through `map_coords_from_claude` with both clamps identities
and maps back via the inverse scale to within ±1 pixel on each axis. -/
theorem round_trip_within_one (cw ch lw lh x y : ℤ)
    (hcw : 0 < cw) (hch : 0 < ch) (hwl : cw ≤ lw) (hhl : ch ≤ lh)
    (hx0 : 0 ≤ x) (hx1 : x ≤ cw - 1) (hy0 : 0 ≤ y) (hy1 : y ≤ ch - 1) :
    mapCoordsFromClaude x y cw ch lw lh =
      (pyRound ((x : ℚ) * lw / cw), pyRound ((y : ℚ) * lh / ch)) ∧
    |(inverseMapToCanvas cw ch lw lh (mapCoordsFromClaude x y cw ch lw lh)).1 - x| ≤ 1 ∧
    |(inverseMapToCanvas cw ch lw lh (mapCoordsFromClaude x y cw ch lw lh)).2 - y| ≤ 1 := by
  obtain ⟨hxl0, hxlU, hxrt⟩ := round_trip_axis cw lw x hcw hwl hx0 hx1
  obtain ⟨hyl0, hylU, hyrt⟩ := round_trip_axis ch lh y hch hhl hy0 hy1
  have hmap : mapCoordsFromClaude x y cw ch lw lh =
      (pyRound ((x : ℚ) * lw / cw), pyRound ((y : ℚ) * lh / ch)) := by
    unfold mapCoordsFromClaude
    simp only [min_eq_left hx1, max_eq_right hx0, min_eq_left hy1, max_eq_right hy0,
      ← mul_div_assoc]
    rw [min_eq_left hxlU, max_eq_right hxl0, min_eq_left hylU, max_eq_right hyl0]
  refine ⟨hmap, ?_, ?_⟩
  · rw [hmap]
    exact hxrt
  · rw [hmap]
    exact hyrt

/-- Witness for `round_trip_within_one` on the 1232×800 canvas over the
1512×982 logical screen at the point (600, 400). -/
theorem round_trip_within_one_w :
    ((0 : ℤ) < 1232 ∧ (0 : ℤ) < 800 ∧ (1232 : ℤ) ≤ 1512 ∧ (800 : ℤ) ≤ 982 ∧
      (0 : ℤ) ≤ 600 ∧ (600 : ℤ) ≤ 1232 - 1 ∧ (0 : ℤ) ≤ 400 ∧ (400 : ℤ) ≤ 800 - 1) ∧
    (|(inverseMapToCanvas 1232 800 1512 982 (mapCoordsFromClaude 600 400 1232 800 1512 982)).1 - 600| ≤ 1 ∧
     |(inverseMapToCanvas 1232 800 1512 982 (mapCoordsFromClaude 600 400 1232 800 1512 982)).2 - 400| ≤ 1) :=
  ⟨⟨by decide, by decide, by decide, by decide, by decide, by decide, by decide, by decide⟩,
    ⟨(round_trip_within_one 1232 800 1512 982 600 400 (by decide) (by decide) (by decide)
        (by decide) (by decide) (by decide) (by decide) (by decide)).2.1,
     (round_trip_within_one 1232 800 1512 982 600 400 (by decide) (by decide) (by decide)
        (by decide) (by decide) (by decide) (by decide) (by decide)).2.2⟩⟩

/-- C1 counterexample: the boundary point `(logical_w, y)` — outside the
half-open box `[0, logical_w) × [0, logical_h)` — passes the inclusive bounds
check of `DesktopAgent.click`: the result is `success: True` and the
coordinate is handed to the OS input layer. -/
theorem click_boundary_point_accepted :
    (clickImpl 1512 982 false 0 1512 500 "left" 1).1.success = some true ∧
    (clickImpl 1512 982 false 0 1512 500 "left" 1).2.2 = [OsEvent.click 1512 500 "left" 1] ∧
    ¬((1512 : ℤ) < 1512) := by
  refine ⟨?_, ?_, by decide⟩ <;> simp [clickImpl]

/-- C1 amended: `click` and `move_mouse` validate against the closed box
`[0, logical_w] × [0, logical_h]`: a coordinate outside the closed box yields
`success: False` with no OS call, every coordinate handed to the OS lies in
the closed box (boundary included), and success is reported exactly when the
bounds check and the OS call both go through. -/
theorem click_move_closed_bounds (W H : ℤ) (osFail : Bool) (c : ℕ) (x y : ℤ)
    (button : String) (clicks : ℕ) :
    (clickImpl W H osFail c x y button clicks).2.2 =
      (if 0 ≤ x ∧ x ≤ W ∧ 0 ≤ y ∧ y ≤ H then [OsEvent.click x y button clicks] else []) ∧
    (clickImpl W H osFail c x y button clicks).1.success =
      some (decide (0 ≤ x ∧ x ≤ W ∧ 0 ≤ y ∧ y ≤ H) && !osFail) ∧
    (moveMouse W H osFail c x y).2.2 =
      (if 0 ≤ x ∧ x ≤ W ∧ 0 ≤ y ∧ y ≤ H then [OsEvent.moveTo x y] else []) ∧
    (moveMouse W H osFail c x y).1.success =
      some (decide (0 ≤ x ∧ x ≤ W ∧ 0 ≤ y ∧ y ≤ H) && !osFail) := by
  by_cases hB : 0 ≤ x ∧ x ≤ W ∧ 0 ≤ y ∧ y ≤ H <;> cases osFail <;>
    simp [clickImpl, moveMouse, hB]

/-- Failure results of `clickImpl` carry an error message. -/
lemma clickImpl_error_on_failure (W H : ℤ) (o : Bool) (c : ℕ) (x y : ℤ)
    (b : String) (k : ℕ) :
    (clickImpl W H o c x y b k).1.success = some false →
      ((clickImpl W H o c x y b k).1.error).isSome := by
  unfold clickImpl
  split_ifs <;> simp

/-- Failure results of `moveMouse` carry an error message. -/
lemma moveMouse_error_on_failure (W H : ℤ) (o : Bool) (c : ℕ) (x y : ℤ) :
    (moveMouse W H o c x y).1.success = some false →
      ((moveMouse W H o c x y).1.error).isSome := by
  unfold moveMouse
  split_ifs <;> simp

/-- Failure results of `typeText` carry an error message. -/
lemma typeText_error_on_failure (o : Bool) (c : ℕ) (t : String) :
    (typeText o c t).1.success = some false → ((typeText o c t).1.error).isSome := by
  unfold typeText
  split_ifs <;> simp

/-- Failure results of `keyPress` carry an error message. -/
lemma keyPress_error_on_failure (o : Bool) (c : ℕ) (k : String) :
    (keyPress o c k).1.success = some false → ((keyPress o c k).1.error).isSome := by
  unfold keyPress
  split_ifs <;> simp

/-- C8 counterexample: a `mouse_move` action dictionary with no `coordinate`
key makes `execute_action` raise a `KeyError` past the executor boundary
instead of returning a failure result. -/
theorem execute_action_raises_on_missing_coordinate :
    executeAction 1512 982 false false 0 ⟨some "mouse_move", none, none⟩ =
      Except.error "KeyError: coordinate" := by
  rfl

/-- C8 amended: `execute_action` returns a well-formed result — converting
unknown action types, out-of-bounds coordinates and caught OS-level failures
into `success: False` results with an error message — provided every field its
action type reads is present and screenshot persistence succeeds; a missing
`coordinate`/`text` field or a failing screenshot save raises instead. -/
theorem execute_action_total_on_wellformed (W H : ℤ) (osFail : Bool) (count : ℕ)
    (a : ActionDict)
    (hcoord : (a.action = some "mouse_move" ∨ a.action = some "left_click" ∨
        a.action = some "right_click" ∨ a.action = some "double_click") →
        a.coordinate.isSome)
    (htext : (a.action = some "type" ∨ a.action = some "key") → a.text.isSome) :
    ∃ r count' ev, executeAction W H osFail false count a = Except.ok (r, count', ev) ∧
      (r.success = some false → r.error.isSome) := by
  unfold executeAction
  split_ifs with h1 h2 h3 h4 h5 h6 h7
  · unfold screenshotImpl
    simp
  · have hs := hcoord (Or.inl h2)
    cases hco : a.coordinate with
    | none => rw [hco] at hs; simp at hs
    | some p =>
        rcases p with ⟨x, y⟩
        exact ⟨_, _, _, rfl, moveMouse_error_on_failure W H osFail count x y⟩
  · have hs := hcoord (Or.inr (Or.inl h3))
    cases hco : a.coordinate with
    | none => rw [hco] at hs; simp at hs
    | some p =>
        rcases p with ⟨x, y⟩
        exact ⟨_, _, _, rfl, clickImpl_error_on_failure W H osFail count x y "left" 1⟩
  · have hs := hcoord (Or.inr (Or.inr (Or.inl h4)))
    cases hco : a.coordinate with
    | none => rw [hco] at hs; simp at hs
    | some p =>
        rcases p with ⟨x, y⟩
        exact ⟨_, _, _, rfl, clickImpl_error_on_failure W H osFail count x y "right" 1⟩
  · have hs := hcoord (Or.inr (Or.inr (Or.inr h5)))
    cases hco : a.coordinate with
    | none => rw [hco] at hs; simp at hs
    | some p =>
        rcases p with ⟨x, y⟩
        exact ⟨_, _, _, rfl, clickImpl_error_on_failure W H osFail count x y "left" 2⟩
  · have hs := htext (Or.inl h6)
    cases hte : a.text with
    | none => rw [hte] at hs; simp at hs
    | some t => exact ⟨_, _, _, rfl, typeText_error_on_failure osFail count t⟩
  · have hs := htext (Or.inr h7)
    cases hte : a.text with
    | none => rw [hte] at hs; simp at hs
    | some k => exact ⟨_, _, _, rfl, keyPress_error_on_failure osFail count k⟩
  · exact ⟨_, _, _, rfl, by simp⟩

/-- Witness for `execute_action_total_on_wellformed`: a `type` action whose OS
call fails still comes back as an `ok` failure result. -/
theorem execute_action_total_on_wellformed_w :
    ((((⟨some "type", none, some "hello"⟩ : ActionDict).action = some "mouse_move" ∨
        (⟨some "type", none, some "hello"⟩ : ActionDict).action = some "left_click" ∨
        (⟨some "type", none, some "hello"⟩ : ActionDict).action = some "right_click" ∨
        (⟨some "type", none, some "hello"⟩ : ActionDict).action = some "double_click") →
        ((⟨some "type", none, some "hello"⟩ : ActionDict).coordinate).isSome) ∧
      ((((⟨some "type", none, some "hello"⟩ : ActionDict).action = some "type" ∨
        (⟨some "type", none, some "hello"⟩ : ActionDict).action = some "key")) →
        ((⟨some "type", none, some "hello"⟩ : ActionDict).text).isSome)) ∧
    (∃ r count' ev,
      executeAction 1512 982 true false 0 ⟨some "type", none, some "hello"⟩ =
        Except.ok (r, count', ev) ∧ (r.success = some false → r.error.isSome)) :=
  ⟨⟨by decide, by decide⟩,
    execute_action_total_on_wellformed 1512 982 true 0 ⟨some "type", none, some "hello"⟩
      (by decide) (by decide)⟩

/-- C9 counterexample: an out-of-bounds `left_click` completes with a failure
result but `action_count` stays at 5 — the failure branch does not increment
the counter. -/
theorem out_of_bounds_click_skips_counter :
    executeAction 1512 982 false false 5 ⟨some "left_click", some (-5, 0), none⟩ =
      Except.ok (ActionResult.mk "click" (some false) (some "Coordinates out of screen bounds"),
        5, []) ∧
    (5 : ℕ) ≠ 5 + 1 := by
  constructor
  · rfl
  · decide

/-- C9 amended: whenever `execute_action` returns a result, the new
`action_count` is the old one plus 1 exactly on the successfully completed
branches (screenshot, or a `success: True` result); out-of-bounds rejections,
caught OS errors and unknown action types leave the counter unchanged. -/
theorem action_count_increments_only_on_success (W H : ℤ) (osFail persistFail : Bool)
    (count : ℕ) (a : ActionDict) :
    onOk (executeAction W H osFail persistFail count a) (fun p =>
      p.2.1 = count + (if p.1.rtype = "screenshot" ∨ p.1.success = some true then 1 else 0)) := by
  unfold executeAction
  split_ifs with h1 h2 h3 h4 h5 h6 h7
  · unfold screenshotImpl
    split_ifs with hp <;> simp [onOk]
  · cases hco : a.coordinate with
    | none => simp [onOk]
    | some p =>
        rcases p with ⟨x, y⟩
        by_cases hB : 0 ≤ x ∧ x ≤ W ∧ 0 ≤ y ∧ y ≤ H <;> cases osFail <;>
          simp [moveMouse, onOk, hB]
  · cases hco : a.coordinate with
    | none => simp [onOk]
    | some p =>
        rcases p with ⟨x, y⟩
        by_cases hB : 0 ≤ x ∧ x ≤ W ∧ 0 ≤ y ∧ y ≤ H <;> cases osFail <;>
          simp [clickImpl, onOk, hB]
  · cases hco : a.coordinate with
    | none => simp [onOk]
    | some p =>
        rcases p with ⟨x, y⟩
        by_cases hB : 0 ≤ x ∧ x ≤ W ∧ 0 ≤ y ∧ y ≤ H <;> cases osFail <;>
          simp [clickImpl, onOk, hB]
  · cases hco : a.coordinate with
    | none => simp [onOk]
    | some p =>
        rcases p with ⟨x, y⟩
        by_cases hB : 0 ≤ x ∧ x ≤ W ∧ 0 ≤ y ∧ y ≤ H <;> cases osFail <;>
          simp [clickImpl, onOk, hB]
  · cases hte : a.text with
    | none => simp [onOk]
    | some t => cases osFail <;> simp [typeText, onOk]
  · cases hte : a.text with
    | none => simp [onOk]
    | some k => cases osFail <;> simp [keyPress, onOk]
  · simp [onOk]

/-- When every response keeps requesting tools, the loop consumes all its fuel,
adds `fuel` iterations, and appends each turn's entries in order. -/
lemma taskLoop_all_tool_use (responses : ℕ → ClaudeResponse)
    (h : ∀ n, (responses n).stopReason ≠ "end_turn" ∧ (responses n).toolUses ≠ []) :
    ∀ fuel iterations turn log,
      taskLoop responses fuel iterations turn log =
        ⟨false, iterations + fuel, log ++ accumulatedEntries responses turn fuel⟩ := by
  intro fuel
  induction fuel with
  | zero => intro iterations turn log; simp [taskLoop, accumulatedEntries]
  | succ n ih =>
      intro iterations turn log
      rw [taskLoop]
      simp only [if_neg (h turn).1, if_pos (h turn).2]
      rw [ih (iterations + 1) (turn + 1) _]
      refine congrArg₂ (TaskOutcome.mk false) (by omega) ?_
      rw [accumulatedEntries]
      simp [List.append_assoc]

/-- C7: with `max_iterations = N` and a remote service that requests further
tool calls on every turn, the task loop runs exactly N iterations — never
N+1 — ends unsuccessfully (the `ABORTED` terminal state, surfaced as
`success: false`), and returns the execution log accumulated over those N
iterations. -/
theorem loop_aborts_at_iteration_cap (N : ℕ) (responses : ℕ → ClaudeResponse)
    (h : ∀ n, (responses n).stopReason ≠ "end_turn" ∧ (responses n).toolUses ≠ []) :
    (executeTask N responses).success = false ∧
    (executeTask N responses).iterations = N ∧
    (executeTask N responses).executionLog = accumulatedEntries responses 0 N := by
  unfold executeTask
  rw [taskLoop_all_tool_use responses h N 0 0 []]
  simp

/-- Witness for `loop_aborts_at_iteration_cap` with `max_iterations = 3`. -/
theorem loop_aborts_at_iteration_cap_w :
    (∀ n, (alwaysToolResponses n).stopReason ≠ "end_turn" ∧
      (alwaysToolResponses n).toolUses ≠ []) ∧
    ((executeTask 3 alwaysToolResponses).success = false ∧
      (executeTask 3 alwaysToolResponses).iterations = 3 ∧
      (executeTask 3 alwaysToolResponses).executionLog =
        accumulatedEntries alwaysToolResponses 0 3) :=
  ⟨by intro n; constructor <;> simp [alwaysToolResponses],
    loop_aborts_at_iteration_cap 3 alwaysToolResponses
      (by intro n; constructor <;> simp [alwaysToolResponses])⟩

/-- Lookup is unchanged by updates at a different reference. -/
lemma refGet_refSet_ne (l : List (ℕ × PyDict)) (a b : ℕ) (d : PyDict) (hne : a ≠ b) :
    refGet (refSet l b d) a = refGet l a := by
  induction l with
  | nil => rfl
  | cons p rest ih =>
      rcases p with ⟨k, v⟩
      by_cases hk : k = b
      · subst hk
        have hka : ¬(k = a) := fun hc => hne hc.symm
        simp [refSet, refGet, hka]
      · simp only [refSet, if_neg hk, refGet]
        by_cases hka : k = a
        · simp [hka]
        · simp [hka, ih]

/-- C10: `log_action` leaves every dictionary the caller holds untouched: the
action dict and the result dict read back bit-for-bit the same after the call
— the redaction happens on a freshly allocated `result.copy()` only, and when
it happens the persisted record points at that fresh copy, not at the caller's
result. -/
theorem log_action_preserves_caller_dicts (h : Heap) (actionRef resultRef : ℕ)
    (hwf : Heap.wf h) (ha : actionRef < h.next) (hr : resultRef < h.next) :
    ((logAction h actionRef resultRef).1).get resultRef = h.get resultRef ∧
    ((logAction h actionRef resultRef).1).get actionRef = h.get actionRef ∧
    ((logAction h actionRef resultRef).2).actionRef = actionRef ∧
    ((dictGet ((h.get resultRef).getD []) "type" = some "screenshot" ∧
        (dictGet ((h.get resultRef).getD []) "data").isSome) →
      ((logAction h actionRef resultRef).2).resultRef ≠ resultRef) := by
  have hget : ∀ q : ℕ, q < h.next →
      ((logActionRedact h actionRef resultRef).1).get q = h.get q := by
    intro q hq
    show refGet (refSet ((h.next, (h.get resultRef).getD []) :: h.mem) h.next
      (dictSet ((h.get resultRef).getD []) "data"
        (redactedPlaceholder (((dictGet ((h.get resultRef).getD []) "data").getD "").length)))) q =
      refGet h.mem q
    rw [refSet, if_pos rfl, refGet, if_neg (by omega : ¬h.next = q)]
  unfold logAction
  split_ifs with hcond
  · refine ⟨hget resultRef hr, hget actionRef ha, rfl, fun _ => ?_⟩
    show h.next ≠ resultRef
    omega
  · exact ⟨rfl, rfl, rfl, fun hc => absurd hc hcond⟩

/-- Witness for `log_action_preserves_caller_dicts` on a store holding a
screenshot result with base64 data. -/
theorem log_action_preserves_caller_dicts_w :
    (Heap.wf ⟨[(0, [("action", "screenshot")]),
        (1, [("type", "screenshot"), ("data", "QUFBQQ==")])], 2⟩ ∧
      (0 : ℕ) < 2 ∧ (1 : ℕ) < 2) ∧
    (((logAction ⟨[(0, [("action", "screenshot")]),
          (1, [("type", "screenshot"), ("data", "QUFBQQ==")])], 2⟩ 0 1).1).get 1 =
        (⟨[(0, [("action", "screenshot")]),
          (1, [("type", "screenshot"), ("data", "QUFBQQ==")])], 2⟩ : Heap).get 1 ∧
      ((logAction ⟨[(0, [("action", "screenshot")]),
          (1, [("type", "screenshot"), ("data", "QUFBQQ==")])], 2⟩ 0 1).2).actionRef = 0) :=
  ⟨⟨by decide, by decide, by decide⟩,
    (log_action_preserves_caller_dicts
        ⟨[(0, [("action", "screenshot")]), (1, [("type", "screenshot"), ("data", "QUFBQQ==")])], 2⟩
        0 1 (by decide) (by decide) (by decide)).1,
    (log_action_preserves_caller_dicts
        ⟨[(0, [("action", "screenshot")]), (1, [("type", "screenshot"), ("data", "QUFBQQ==")])], 2⟩
        0 1 (by decide) (by decide) (by decide)).2.2.1⟩

end ComputerUse
